import Mathlib

/-!
Verification of the batch image editor's core logic: the Gemini service
adapters (`extractTextWithBoundingBoxes`, `editImage`) and the batch
orchestrator (`handleSubmit`, `analyzeMasterImage`, selection handlers)
of `ImageEditor.tsx`, shallowly embedded in Lean.
-/

/-! ## JSON values and a JSON.parse model

`extractTextWithBoundingBoxes` runs `JSON.parse` on the trimmed response
text and returns the parsed value unvalidated (`result as
TextWithBoundingBox[]`).  We model JSON values with numbers as rationals
(decimal literals are exact rationals) and `JSON.parse` as a
recursive-descent parser over the character list.
-/

inductive Json where
  | null : Json
  | bool (b : Bool) : Json
  | num (q : ℚ) : Json
  | str (s : String) : Json
  | arr (elems : List Json) : Json
  | obj (fields : List (String × Json)) : Json
deriving Repr

def skipWs : List Char → List Char
  | [] => []
  | c :: rest =>
    if c = ' ' ∨ c = '\t' ∨ c = '\n' ∨ c = '\r' then skipWs rest else c :: rest

def takeDigits : List Char → List Char × List Char
  | [] => ([], [])
  | c :: rest =>
    if c.isDigit then
      let p := takeDigits rest
      (c :: p.1, p.2)
    else ([], c :: rest)

def digitsToNat (ds : List Char) : Nat :=
  ds.foldl (fun acc c => acc * 10 + (c.toNat - 48)) 0

def parseNumber (cs : List Char) : Option (ℚ × List Char) :=
  let signed : Bool × List Char :=
    match cs with
    | '-' :: r => (true, r)
    | _ => (false, cs)
  let ip := takeDigits signed.2
  if ip.1 = [] then none
  else if 1 < ip.1.length ∧ ip.1.head? = some '0' then none
  else
    let intPart : ℚ := (digitsToNat ip.1 : ℚ)
    let step2 : Option (ℚ × List Char) :=
      match ip.2 with
      | '.' :: r =>
        let fp := takeDigits r
        if fp.1 = [] then none
        else some (intPart + (digitsToNat fp.1 : ℚ) / ((10 : ℚ) ^ fp.1.length), fp.2)
      | _ => some (intPart, ip.2)
    match step2 with
    | none => none
    | some (mant, cs₃) =>
      let step3 : Option (ℚ × List Char) :=
        match cs₃ with
        | 'e' :: r | 'E' :: r =>
          let esigned : Bool × List Char :=
            match r with
            | '+' :: t => (false, t)
            | '-' :: t => (true, t)
            | _ => (false, r)
          let ep := takeDigits esigned.2
          if ep.1 = [] then none
          else
            let e := digitsToNat ep.1
            some (if esigned.1 then mant / (10 : ℚ) ^ e else mant * (10 : ℚ) ^ e, ep.2)
        | _ => some (mant, cs₃)
      match step3 with
      | none => none
      | some (v, rest) => some (if signed.1 then -v else v, rest)

def hexVal (c : Char) : Option Nat :=
  if c.isDigit then some (c.toNat - 48)
  else if 'a' ≤ c ∧ c ≤ 'f' then some (c.toNat - 87)
  else if 'A' ≤ c ∧ c ≤ 'F' then some (c.toNat - 55)
  else none

def parseStringBody : Nat → List Char → Option (List Char × List Char)
  | 0, _ => none
  | _, [] => none
  | fuel + 1, c :: rest =>
    if c = '"' then some ([], rest)
    else if c = '\\' then
      match rest with
      | [] => none
      | e :: rest₁ =>
        let esc : Option (Char × List Char) :=
          if e = '"' then some ('"', rest₁)
          else if e = '\\' then some ('\\', rest₁)
          else if e = '/' then some ('/', rest₁)
          else if e = 'b' then some (Char.ofNat 8, rest₁)
          else if e = 'f' then some (Char.ofNat 12, rest₁)
          else if e = 'n' then some ('\n', rest₁)
          else if e = 'r' then some ('\r', rest₁)
          else if e = 't' then some ('\t', rest₁)
          else if e = 'u' then
            match rest₁ with
            | a :: b :: c₂ :: d :: rest₂ =>
              match hexVal a, hexVal b, hexVal c₂, hexVal d with
              | some ha, some hb, some hc, some hd =>
                some (Char.ofNat (((ha * 16 + hb) * 16 + hc) * 16 + hd), rest₂)
              | _, _, _, _ => none
            | _ => none
          else none
        match esc with
        | some (ch, r) => (parseStringBody fuel r).map (fun p => (ch :: p.1, p.2))
        | none => none
    else if c.toNat < 32 then none
    else (parseStringBody fuel rest).map (fun p => (c :: p.1, p.2))

mutual

def parseValue : Nat → List Char → Option (Json × List Char)
  | 0, _ => none
  | fuel + 1, cs =>
    match skipWs cs with
    | [] => none
    | c :: rest =>
      if c = 'n' then
        match rest with
        | 'u' :: 'l' :: 'l' :: r => some (.null, r)
        | _ => none
      else if c = 't' then
        match rest with
        | 'r' :: 'u' :: 'e' :: r => some (.bool true, r)
        | _ => none
      else if c = 'f' then
        match rest with
        | 'a' :: 'l' :: 's' :: 'e' :: r => some (.bool false, r)
        | _ => none
      else if c = '"' then
        (parseStringBody (rest.length + 1) rest).map (fun p => (.str (String.mk p.1), p.2))
      else if c = '[' then
        match skipWs rest with
        | ']' :: r => some (.arr [], r)
        | cs₂ => (parseArrayItems fuel cs₂).map (fun p => (.arr p.1, p.2))
      else if c = '{' then
        match skipWs rest with
        | '}' :: r => some (.obj [], r)
        | cs₂ => (parseObjectItems fuel cs₂).map (fun p => (.obj p.1, p.2))
      else if c = '-' ∨ c.isDigit then
        (parseNumber (c :: rest)).map (fun p => (.num p.1, p.2))
      else none

def parseArrayItems : Nat → List Char → Option (List Json × List Char)
  | 0, _ => none
  | fuel + 1, cs =>
    match parseValue fuel cs with
    | none => none
    | some (v, r) =>
      match skipWs r with
      | ',' :: r₂ => (parseArrayItems fuel r₂).map (fun p => (v :: p.1, p.2))
      | ']' :: r₂ => some ([v], r₂)
      | _ => none

def parseObjectItems : Nat → List Char → Option (List (String × Json) × List Char)
  | 0, _ => none
  | fuel + 1, cs =>
    match skipWs cs with
    | '"' :: r =>
      match parseStringBody (r.length + 1) r with
      | none => none
      | some (k, r₁) =>
        match skipWs r₁ with
        | ':' :: r₂ =>
          match parseValue fuel r₂ with
          | none => none
          | some (v, r₃) =>
            match skipWs r₃ with
            | ',' :: r₄ => (parseObjectItems fuel r₄).map (fun p => ((String.mk k, v) :: p.1, p.2))
            | '}' :: r₄ => some ([(String.mk k, v)], r₄)
            | _ => none
        | _ => none
    | _ => none

end

def parseJson (s : String) : Option Json :=
  match parseValue (2 * s.length + 2) s.data with
  | some (j, rest) => if skipWs rest = [] then some j else none
  | none => none

/-! ## Text Extraction Adapter (`extractTextWithBoundingBoxes`)

The adapter trims the raw response text, runs `JSON.parse` on it, and on
success returns the parsed value as-is (the `result as
TextWithBoundingBox[]` cast performs no runtime validation); on a parse
failure it throws a fixed user-facing error and only logs the raw
response.
-/

def malformedMessage : String :=
  "The AI could not extract text and location data in the expected format. Please try another image."

/-- JS WhiteSpace / LineTerminator, the characters `String.prototype.trim`
strips: TAB, LF, VT, FF, CR, SP, NBSP, Ogham space, the U+2000..200A
spaces, LS, PS, NNBSP, MMSP, ideographic space, and the BOM. -/
def isJsWhitespace (c : Char) : Bool :=
  c.toNat = 9 ∨ c.toNat = 10 ∨ c.toNat = 11 ∨ c.toNat = 12 ∨ c.toNat = 13 ∨
  c.toNat = 32 ∨ c.toNat = 160 ∨ c.toNat = 5760 ∨
  (8192 ≤ c.toNat ∧ c.toNat ≤ 8202) ∨ c.toNat = 8232 ∨ c.toNat = 8233 ∨
  c.toNat = 8239 ∨ c.toNat = 8287 ∨ c.toNat = 12288 ∨ c.toNat = 65279

/-- JS `String.prototype.trim`: strip leading and trailing whitespace. -/
def jsTrim (s : String) : String :=
  String.mk (((s.data.dropWhile isJsWhitespace).reverse.dropWhile isJsWhitespace).reverse)

def extractTextWithBoundingBoxes (rawText : String) : Except String Json :=
  match parseJson (jsTrim rawText) with
  | some j => .ok j
  | none => .error malformedMessage

/-- A JSON object field lookup with JSON.parse duplicate-key semantics
(the last occurrence of a key wins). -/
def getField (fields : List (String × Json)) (k : String) : Option Json :=
  fields.reverse.lookup k

/-- The coordinate is a JSON number lying within [0,1]. -/
def isFractionCoord : Option Json → Bool
  | some (.num q) => decide (0 ≤ q ∧ q ≤ 1)
  | _ => false

/-- The element has a string `text` and a `boundingBox` object whose four
coordinates are numbers within [0,1] (the schema the spec promises of
every returned element). -/
def validRegion : Json → Bool
  | .obj fields =>
    (match getField fields "text" with
     | some (.str _) => true
     | _ => false) &&
    (match getField fields "boundingBox" with
     | some (.obj bb) =>
       isFractionCoord (getField bb "x1") && isFractionCoord (getField bb "y1") &&
       isFractionCoord (getField bb "x2") && isFractionCoord (getField bb "y2")
     | _ => false)
  | _ => false

def validRegionList : Json → Bool
  | .arr elems => elems.all validRegion
  | _ => false

/-- Claim C1 as stated, as an executable check: on this raw response the
adapter either returns a list whose every element is schema-valid with
coordinates in [0,1], or fails with the malformed-response message. -/
def c1StatementHolds (raw : String) : Bool :=
  match extractTextWithBoundingBoxes raw with
  | .ok j => validRegionList j
  | .error e => e == malformedMessage

def C1Statement (raw : String) : Prop :=
  c1StatementHolds raw = true

/-- A raw response that parses as JSON but carries an out-of-range
coordinate: the adapter returns it unvalidated. -/
def c1RawInput : String :=
  "[\x7b\"text\":\"a\",\"boundingBox\":\x7b\"x1\":5,\"y1\":0,\"x2\":0,\"y2\":0\x7d\x7d]"

def c1ParsedValue : Json :=
  .arr [.obj [("text", .str "a"),
              ("boundingBox", .obj [("x1", .num 5), ("y1", .num 0),
                                    ("x2", .num 0), ("y2", .num 0)])]]

/-! ## Edit Adapter (`editImage`)

`editImage` makes a single `generateContent` call and post-processes the
response: it scans `response.candidates?.[0]?.content?.parts ?? []` for
the first part carrying `inlineData` and returns it as a data URL; with
no such part it inspects `response.candidates?.[0]?.finishReason` — a
truthy value other than "STOP" throws the blocked error naming it,
anything else throws the no-image error.
-/

structure InlineData where
  data : String
  mimeType : String
deriving DecidableEq, Repr

structure ResponsePart where
  text : Option String
  inlineData : Option InlineData
deriving DecidableEq, Repr

structure Content where
  parts : List ResponsePart
deriving DecidableEq, Repr

structure Candidate where
  content : Option Content
  finishReason : Option String
deriving DecidableEq, Repr

structure EditResponse where
  candidates : List Candidate
deriving DecidableEq, Repr

inductive EditError where
  | blocked (reason : String)
  | noImage
deriving DecidableEq, Repr

def EditError.message : EditError → String
  | .blocked reason =>
    "Image generation was blocked. Reason: " ++ reason ++ ". Please try a different prompt."
  | .noImage =>
    "No edited image found in the response. The model may not have been able to fulfill the request."

def firstInlineData (r : EditResponse) : Option InlineData :=
  (((r.candidates.head?.bind Candidate.content).map Content.parts).getD []).findSome?
    ResponsePart.inlineData

def finishReasonOf (r : EditResponse) : Option String :=
  r.candidates.head?.bind Candidate.finishReason

def editImage (r : EditResponse) : Except EditError String :=
  match firstInlineData r with
  | some d => .ok ("data:" ++ d.mimeType ++ ";base64," ++ d.data)
  | none =>
    match finishReasonOf r with
    | some reason =>
      if reason ≠ "" ∧ reason ≠ "STOP" then .error (.blocked reason) else .error .noImage
    | none => .error .noImage

/-- The adapter as it sits over the wire: it consumes exactly the first
response of the remote call sequence, with no retry. -/
def editImageSingleCall (oracle : Nat → EditResponse) : Except EditError String :=
  editImage (oracle 0)

/-- Claim C6 as stated: with no inline image part, a *present* finish
reason other than "STOP" always yields the blocked error naming it. -/
def C6Statement (r : EditResponse) : Prop :=
  (∀ d, firstInlineData r = some d →
    editImage r = .ok ("data:" ++ d.mimeType ++ ";base64," ++ d.data)) ∧
  (firstInlineData r = none →
    (∀ reason, finishReasonOf r = some reason → reason ≠ "STOP" →
      editImage r = .error (.blocked reason)) ∧
    ((finishReasonOf r = none ∨ finishReasonOf r = some "STOP") →
      editImage r = .error .noImage))

/-- A response with no image part whose `finishReason` is the empty
string: present and distinct from "STOP", yet falsy in the JS guard
`blockReason && blockReason !== "STOP"`. -/
def c6Response : EditResponse :=
  ⟨[⟨some ⟨[⟨some "no image for you", none⟩]⟩, some ""⟩]⟩

/-! ## Data model of the orchestrator (`ImageEditor.tsx`) -/

structure BoundingBox where
  x1 : ℚ
  y1 : ℚ
  x2 : ℚ
  y2 : ℚ
deriving DecidableEq, Repr

structure TextWithBoundingBox where
  text : String
  boundingBox : BoundingBox
deriving DecidableEq, Repr

structure TextItem where
  id : Nat
  original : String
  modified : String
  boundingBox : BoundingBox
deriving DecidableEq, Repr

inductive BatchProgress where
  | pending
  | loading
  | success (result : String)
  | error (msg : String)
deriving DecidableEq, Repr

def BatchProgress.isTerminal : BatchProgress → Bool
  | .success _ => true
  | .error _ => true
  | _ => false

/-! ## Mask Builder (the body of `handleSubmit`'s per-image loop) -/

/-- `currentImageTextItems.find(item => item.text.trim() === change.original.trim())`. -/
def matchRegion (regions : List TextWithBoundingBox) (change : TextItem) :
    Option TextWithBoundingBox :=
  regions.find? (fun item => jsTrim item.text == jsTrim change.original)

def instructionLine (change : TextItem) : String :=
  "- In the area where \"" ++ change.original ++ "\" was, write \"" ++ change.modified ++ "\""

structure Rect where
  x : ℚ
  y : ℚ
  w : ℚ
  h : ℚ
deriving DecidableEq, Repr

def rectOfBox (box : BoundingBox) (width height : Nat) : Rect :=
  { x := box.x1 * width
    y := box.y1 * height
    w := (box.x2 - box.x1) * width
    h := (box.y2 - box.y1) * height }

/-- `ctx.fillStyle = '#FF00FF'`: the single fixed sentinel fill color. -/
def fillStyle : String := "#FF00FF"

/-- The rectangles passed to `ctx.fillRect`, one per active change whose
original text (trimmed) is found on the target image, using the target
region's own bounding box. -/
def maskRects (changes : List TextItem) (regions : List TextWithBoundingBox)
    (width height : Nat) : List Rect :=
  changes.filterMap
    (fun change => (matchRegion regions change).map
      (fun foundText => rectOfBox foundText.boundingBox width height))

/-- The non-null instruction lines, one per matched change (`specificChanges`). -/
def specificChanges (changes : List TextItem) (regions : List TextWithBoundingBox) :
    List String :=
  changes.filterMap
    (fun change => (matchRegion regions change).map (fun _ => instructionLine change))

def hasMasks (changes : List TextItem) (regions : List TextWithBoundingBox) : Bool :=
  changes.any (fun change => (matchRegion regions change).isSome)

def promptPreamble : String :=
  "I have provided an original image and a version with bright magenta areas (a mask). Your ONLY task is to precisely fill in these magenta areas with new text. The result must be sharp, high-fidelity, and indistinguishable from the original's style, font, color, and perspective. Here are the specific replacements:\n"

def promptPostscript : String :=
  "\nDo not alter any part of the image outside the magenta areas."

def finalPrompt (changes : List TextItem) (regions : List TextWithBoundingBox) : String :=
  promptPreamble ++ String.intercalate "\n" (specificChanges changes regions) ++ promptPostscript

def noMatchMessage : String :=
  "The text to be changed was not found on this image variant."

/-! ## Batch Orchestrator (`handleSubmit`)

Each selected image is processed inside its own try/catch: the image
element lookup, the per-image extraction call, the mask construction
(failing with the no-match error when no change matched), and the edit
call.  The per-image remote outcomes are supplied as an environment,
one per image index.
-/

/-- One selected image's environment: its `<img>` element (natural
dimensions) when mounted, the outcome its extraction call would have
(transport/parse error or a region list), and the outcome its edit call
would have (transport error or a response to scan). -/
structure PerImageEnv where
  element : Option (Nat × Nat)
  extractResult : Except String (List TextWithBoundingBox)
  editResult : Except String EditResponse
deriving Repr

/-- `textItems.filter(item => item.original !== item.modified)`. -/
def activeChanges (textItems : List TextItem) : List TextItem :=
  textItems.filter (fun item => item.original != item.modified)

/-- The terminal `BatchProgress` the try/catch of `handleSubmit`'s loop
records for one image. -/
def processImage (changes : List TextItem) (env : PerImageEnv) (idx : Nat) : BatchProgress :=
  match env.element with
  | none => .error ("Image element for index " ++ toString idx ++ " not found.")
  | some _dims =>
    match env.extractResult with
    | .error e => .error e
    | .ok regions =>
      if hasMasks changes regions then
        match env.editResult with
        | .error e => .error e
        | .ok resp =>
          match editImage resp with
          | .ok result => .success result
          | .error err => .error err.message
      else .error noMatchMessage

/-- How many remote calls the loop body issues for one image: the
extraction call once the element is found, and the edit call once a mask
was produced. -/
def remoteCallsFor (changes : List TextItem) (env : PerImageEnv) : Nat :=
  match env.element with
  | none => 0
  | some _dims =>
    match env.extractResult with
    | .error _ => 1
    | .ok regions => if hasMasks changes regions then 2 else 1

/-- `setBatchProgress(prev => ({ ...prev, [imageIndex]: v }))` on an
association-list map: replace the key in place, or append it. -/
def updateProgress (m : List (Nat × BatchProgress)) (k : Nat) (v : BatchProgress) :
    List (Nat × BatchProgress) :=
  if m.any (fun kv => kv.1 == k) then
    m.map (fun kv => if kv.1 == k then (k, v) else kv)
  else m ++ [(k, v)]

def validationMessage1 : String :=
  "Please select a master image and at least one image for the batch."

def validationMessage2 : String :=
  "You haven't made any text changes to apply."

/-- Everything `handleSubmit` leaves observable: the alert it raised,
whether the batch phase was entered, the per-key writes it issued to the
progress map (the initial `loading` assignment, then one terminal write
per image in iteration order), the final map, and how many remote calls
were made. -/
structure SubmitResult where
  alertMsg : Option String
  batchStarted : Bool
  writeEvents : List (Nat × BatchProgress)
  finalProgress : List (Nat × BatchProgress)
  remoteCalls : Nat
deriving Repr

def handleSubmit (masterIndex : Option Nat) (selection : List Nat)
    (textItems : List TextItem) (envs : Nat → PerImageEnv)
    (prevProgress : List (Nat × BatchProgress)) : SubmitResult :=
  if masterIndex = none ∨ selection = [] then
    { alertMsg := some validationMessage1
      batchStarted := false
      writeEvents := []
      finalProgress := prevProgress
      remoteCalls := 0 }
  else
    let changes := activeChanges textItems
    if changes = [] then
      { alertMsg := some validationMessage2
        batchStarted := false
        writeEvents := []
        finalProgress := prevProgress
        remoteCalls := 0 }
    else
      let initialProgress := selection.map (fun i => (i, BatchProgress.loading))
      let terminalWrites := selection.map (fun i => (i, processImage changes (envs i) i))
      { alertMsg := none
        batchStarted := true
        writeEvents := initialProgress ++ terminalWrites
        finalProgress := terminalWrites.foldl (fun m kv => updateProgress m kv.1 kv.2) initialProgress
        remoteCalls := (selection.map (fun i => remoteCallsFor changes (envs i))).sum }

/-! ## Master analysis (`analyzeMasterImage`) -/

structure AnalysisState where
  textItems : List TextItem
  isAnalyzing : Bool
  analysisError : Option String
  batchProgress : List (Nat × BatchProgress)
deriving Repr

/-- `item i` of the fresh EditItem list: `id = i`, `original = modified =
item.text`, the region's bounding box. -/
def toTextItems (regions : List TextWithBoundingBox) : List TextItem :=
  (regions.zip (List.range regions.length)).map
    (fun p => ⟨p.2, p.1.text, p.1.text, p.1.boundingBox⟩)

/-- The synchronous prefix of `analyzeMasterImage`: clear the EditItem
list, the analysis error and the progress map, raise the analyzing flag. -/
def analyzeMasterStart (st : AnalysisState) : AnalysisState :=
  { st with isAnalyzing := true, textItems := [], analysisError := none, batchProgress := [] }

/-- The continuation after the extraction call settles. -/
def analyzeMasterFinish (extractResult : Except String (List TextWithBoundingBox))
    (st : AnalysisState) : AnalysisState :=
  match extractResult with
  | .ok regions => { st with textItems := toTextItems regions, isAnalyzing := false }
  | .error e => { st with analysisError := some e, isAnalyzing := false }

def analyzeMasterImage (masterIndex : Option Nat) (numImages : Nat)
    (extractResult : Except String (List TextWithBoundingBox)) (st : AnalysisState) :
    AnalysisState :=
  match masterIndex with
  | none => st
  | some m =>
    if m < numImages then analyzeMasterFinish extractResult (analyzeMasterStart st)
    else st

/-! ## Selection state machine (`handleFileSelect`, `handleSelectMaster`,
`handleToggleBatchSelection`)

The selection is a JS `Set` of indices kept in insertion order; the
master index starts `null` and the selection empty.
-/

structure EditorState where
  numImages : Nat
  masterIndex : Option Nat
  batchSelection : List Nat
deriving DecidableEq, Repr

def initialEditorState : EditorState := ⟨0, none, []⟩

def setAdd (s : List Nat) (i : Nat) : List Nat :=
  if i ∈ s then s else s ++ [i]

def setDelete (s : List Nat) (i : Nat) : List Nat :=
  s.filter (fun j => j != i)

def handleFileSelect (st : EditorState) (newFiles : Nat) : EditorState :=
  let updated := st.numImages + newFiles
  if st.masterIndex = none ∧ 0 < updated then
    { numImages := updated, masterIndex := some 0, batchSelection := [0] }
  else
    { st with numImages := updated }

def handleSelectMaster (st : EditorState) (i : Nat) : EditorState :=
  { st with masterIndex := some i, batchSelection := setAdd st.batchSelection i }

def handleToggleBatchSelection (st : EditorState) (i : Nat) : EditorState :=
  { st with batchSelection :=
      if i ∈ st.batchSelection then
        if st.masterIndex = some i then st.batchSelection
        else setDelete st.batchSelection i
      else setAdd st.batchSelection i }

/-- The session states the three handlers can reach from the initial
state. -/
inductive Reachable : EditorState → Prop
  | init : Reachable initialEditorState
  | fileSelect {st} (k : Nat) : Reachable st → Reachable (handleFileSelect st k)
  | selectMaster {st} (i : Nat) : Reachable st → Reachable (handleSelectMaster st i)
  | toggle {st} (i : Nat) : Reachable st → Reachable (handleToggleBatchSelection st i)

/-! ## Concrete sample data used by the closed witness statements -/

def boxMaster : BoundingBox := ⟨0, 0, 2/10, 1/10⟩

def boxTarget : BoundingBox := ⟨3/10, 4/10, 6/10, 5/10⟩

def boxOther : BoundingBox := ⟨7/10, 7/10, 8/10, 8/10⟩

/-- "SALE" on the master, edited to "CLEARANCE". -/
def saleItem : TextItem := ⟨0, "SALE", "CLEARANCE", boxMaster⟩

/-- The second image's own extraction of "SALE", at its own box. -/
def saleRegion : TextWithBoundingBox := ⟨"SALE", boxTarget⟩

def otherRegion : TextWithBoundingBox := ⟨"OTHER", boxOther⟩

/-- A duplicate "SALE" occurrence later in a target's region list. -/
def saleRegionDup : TextWithBoundingBox := ⟨"SALE", boxOther⟩

/-- An edit response carrying an inline image part. -/
def okEditResponse : EditResponse :=
  ⟨[⟨some ⟨[⟨none, some ⟨"abc", "image/png"⟩⟩]⟩, some "STOP"⟩]⟩

/-- An environment whose extraction finds no region matching "SALE". -/
def envNoMatch : PerImageEnv := ⟨some (100, 200), .ok [otherRegion], .ok okEditResponse⟩

/-- An environment whose extraction finds "SALE" and whose edit succeeds. -/
def envSuccess : PerImageEnv := ⟨some (100, 200), .ok [saleRegion], .ok okEditResponse⟩

def sampleEnvs : Nat → PerImageEnv :=
  fun i => if i = 0 then envNoMatch else envSuccess

/-! ## Theorems -/

/-- C1 (counterexample): the claim fails as stated. The raw response
`c1RawInput` parses as JSON, so the adapter returns it as the extracted
list even though its only element's `x1` coordinate is 5, outside [0,1]:
the code performs no client-side schema or range validation (the
`result as TextWithBoundingBox[]` cast checks nothing at runtime). -/
theorem c1_claim_counterexample : ¬ C1Statement c1RawInput := by
  intro h
  have hfalse : c1StatementHolds c1RawInput = false := by rfl
  rw [C1Statement, hfalse] at h
  exact absurd h (by decide)

/-- C1 (amended): for every raw remote response,
`extractTextWithBoundingBoxes` either returns the JSON-parsed response
verbatim — performing no validation of the `text`/`boundingBox` schema or
of the [0,1] coordinate range — or, when the trimmed response is not
valid JSON, fails with the single fixed malformed-response error whose
user-facing message suggests retrying with another image; every error it
can return is that constant, so the raw response text is never part of
the error surfaced to the user, and JSON parsing is all-or-nothing, so no
partial list is ever produced. -/
theorem extractText_parse_contract (raw : String) :
    (∀ j, parseJson (jsTrim raw) = some j → extractTextWithBoundingBoxes raw = .ok j) ∧
    (parseJson (jsTrim raw) = none →
      extractTextWithBoundingBoxes raw = .error malformedMessage) ∧
    (∀ e, extractTextWithBoundingBoxes raw = .error e → e = malformedMessage) ∧
    (∃ p, malformedMessage = p ++ "Please try another image.") := by
  refine ⟨?_, ?_, ?_,
    ⟨"The AI could not extract text and location data in the expected format. ", rfl⟩⟩
  · intro j h
    simp [extractTextWithBoundingBoxes, h]
  · intro h
    simp [extractTextWithBoundingBoxes, h]
  · intro e h
    unfold extractTextWithBoundingBoxes at h
    cases hp : parseJson (jsTrim raw) with
    | some j => rw [hp] at h; cases h
    | none => rw [hp] at h; cases h; rfl

/-- The amended C1 theorem applied to a concrete unparseable response. -/
theorem extractText_parse_contract_witness :
    extractTextWithBoundingBoxes "oops" = .error malformedMessage :=
  (extractText_parse_contract "oops").2.1 (by rfl)

/-- C6 (counterexample): the claim fails as stated on a response with no
inline image part whose `finishReason` is the empty string — present and
different from "STOP", so the claim demands the blocked error naming it,
but the JS guard `blockReason && blockReason !== 'STOP'` is falsy on the
empty string and the code throws the no-image error instead. -/
theorem c6_claim_counterexample : ¬ C6Statement c6Response := by
  intro h
  have hblocked := (h.2 (by rfl)).1 "" (by rfl) (by decide)
  have hnoimg : editImage c6Response = .error .noImage := by rfl
  rw [hnoimg] at hblocked
  simp at hblocked

/-- C6 (amended): for every remote response, `editImage` returns the
first inline image payload among the first candidate's content parts as a
data URL with that payload's reported MIME type; with no inline image
part it fails with the blocked-generation error naming the finish reason
whenever that reason is present, non-empty and not "STOP", and with the
no-image-produced error when the reason is absent, empty or "STOP".  The
result is a function of the single (first) remote response alone: exactly
one remote call, no retry. -/
theorem editImage_response_contract (r : EditResponse) :
    (∀ d, firstInlineData r = some d →
      editImage r = .ok ("data:" ++ d.mimeType ++ ";base64," ++ d.data)) ∧
    (firstInlineData r = none →
      (∀ reason, finishReasonOf r = some reason → reason ≠ "" → reason ≠ "STOP" →
        editImage r = .error (.blocked reason)) ∧
      ((finishReasonOf r = none ∨ finishReasonOf r = some "" ∨
        finishReasonOf r = some "STOP") → editImage r = .error .noImage)) ∧
    (∀ oracle oracle' : Nat → EditResponse, oracle 0 = oracle' 0 →
      editImageSingleCall oracle = editImageSingleCall oracle') := by
  refine ⟨?_, ?_, ?_⟩
  · intro d h
    simp [editImage, h]
  · intro hnone
    constructor
    · intro reason hr hne hstop
      simp [editImage, hnone, hr, hne, hstop]
    · rintro (h | h | h) <;> simp [editImage, hnone, h]
  · intro oracle oracle' h
    simp [editImageSingleCall, h]

/-- The amended C6 theorem applied to concrete responses: a response with
an inline PNG part yields its data URL, and a response blocked with
reason "SAFETY" yields the blocked error. -/
theorem editImage_response_contract_witness :
    editImage okEditResponse = .ok "data:image/png;base64,abc" ∧
    editImage ⟨[⟨some ⟨[]⟩, some "SAFETY"⟩]⟩ = .error (.blocked "SAFETY") := by
  constructor
  · exact (editImage_response_contract okEditResponse).1 ⟨"abc", "image/png"⟩ (by rfl)
  · exact ((editImage_response_contract ⟨[⟨some ⟨[]⟩, some "SAFETY"⟩]⟩).2.1 (by rfl)).1
      "SAFETY" (by rfl) (by decide) (by decide)

/-- Helper: `Array.prototype.find` skips every element failing the
predicate. -/
theorem find?_append_of_forall_not {α} (p : α → Bool) (l₁ l₂ : List α)
    (h : ∀ g ∈ l₁, p g = false) : (l₁ ++ l₂).find? p = l₂.find? p := by
  induction l₁ with
  | nil => simp
  | cons a t ih =>
    rw [List.cons_append,
      List.find?_cons_of_neg _ (by simp [h a (List.mem_cons_self a t)])]
    exact ih (fun g hg => h g (List.mem_cons_of_mem a hg))

/-- C4: an active EditItem is matched to a region of the target image's
own extraction if and only if some region's text equals the item's
`original` after trimming both sides (exact post-trim equality, nothing
fuzzy); the matched region is one of the target's own regions with
trim-equal text, the fill rectangle is computed from that region's own
bounding box, and each match contributes the instruction line
`- In the area where "<original>" was, write "<modified>"` — in
particular the SALE→CLEARANCE item's line contains
`In the area where "SALE" was, write "CLEARANCE"`. -/
theorem mask_matching_trim_equality
    (regions : List TextWithBoundingBox) (change : TextItem) :
    ((matchRegion regions change).isSome ↔
      ∃ f ∈ regions, jsTrim f.text = jsTrim change.original) ∧
    (∀ f, matchRegion regions change = some f →
      f ∈ regions ∧ jsTrim f.text = jsTrim change.original) ∧
    (∀ f w h, matchRegion regions change = some f →
      maskRects [change] regions w h = [rectOfBox f.boundingBox w h]) ∧
    (instructionLine change =
      "- In the area where \"" ++ change.original ++ "\" was, write \""
        ++ change.modified ++ "\"") ∧
    (∃ p q, instructionLine saleItem =
      p ++ "In the area where \"SALE\" was, write \"CLEARANCE\"" ++ q) := by
  refine ⟨?_, ?_, ?_, rfl, ⟨"- ", "", by rfl⟩⟩
  · simp [matchRegion, List.find?_isSome]
  · intro f hf
    unfold matchRegion at hf
    refine ⟨List.mem_of_find?_eq_some hf, ?_⟩
    simpa using List.find?_some hf
  · intro f w h hf
    simp [maskRects, hf]

/-- The C4 theorem applied to the concrete SALE→CLEARANCE scenario: the
second image's own "SALE" region (at its own box, not the master's) is
matched and masked, and the instruction line is exactly the directive. -/
theorem mask_matching_trim_equality_witness :
    maskRects [saleItem] [saleRegion] 1000 500
      = [rectOfBox saleRegion.boundingBox 1000 500] ∧
    instructionLine saleItem = "- In the area where \"SALE\" was, write \"CLEARANCE\"" := by
  constructor
  · exact (mask_matching_trim_equality [saleRegion] saleItem).2.2.1 saleRegion 1000 500 (by rfl)
  · exact ((mask_matching_trim_equality [saleRegion] saleItem).2.2.2.1).trans (by rfl)

/-- C7: every matched region contributes to the mask exactly the fill
rectangle with top-left `(x1*width, y1*height)`, width `(x2-x1)*width`
and height `(y2-y1)*height` (painted in the single fixed sentinel color
`#FF00FF`); concretely, box {x1:0.1, y1:0.2, x2:0.5, y2:0.4} on a
1000×500 image fills the rectangle spanning x from 100 to 500 and y from
100 to 200. -/
theorem mask_pixel_rectangle
    (changes : List TextItem) (regions : List TextWithBoundingBox) (w h : Nat)
    (change : TextItem) (f : TextWithBoundingBox)
    (hc : change ∈ changes) (hm : matchRegion regions change = some f) :
    rectOfBox f.boundingBox w h ∈ maskRects changes regions w h ∧
    rectOfBox f.boundingBox w h =
      ⟨f.boundingBox.x1 * w, f.boundingBox.y1 * h,
       (f.boundingBox.x2 - f.boundingBox.x1) * w,
       (f.boundingBox.y2 - f.boundingBox.y1) * h⟩ ∧
    fillStyle = "#FF00FF" ∧
    (rectOfBox ⟨1/10, 2/10, 5/10, 4/10⟩ 1000 500).x = 100 ∧
    (rectOfBox ⟨1/10, 2/10, 5/10, 4/10⟩ 1000 500).x
      + (rectOfBox ⟨1/10, 2/10, 5/10, 4/10⟩ 1000 500).w = 500 ∧
    (rectOfBox ⟨1/10, 2/10, 5/10, 4/10⟩ 1000 500).y = 100 ∧
    (rectOfBox ⟨1/10, 2/10, 5/10, 4/10⟩ 1000 500).y
      + (rectOfBox ⟨1/10, 2/10, 5/10, 4/10⟩ 1000 500).h = 200 := by
  refine ⟨?_, rfl, rfl, by norm_num [rectOfBox], by norm_num [rectOfBox],
    by norm_num [rectOfBox], by norm_num [rectOfBox]⟩
  exact List.mem_filterMap.2 ⟨change, hc, by simp [hm]⟩

/-- The C7 theorem applied to the concrete SALE scenario on a 1000×500
target image. -/
theorem mask_pixel_rectangle_witness :
    rectOfBox saleRegion.boundingBox 1000 500 ∈ maskRects [saleItem] [saleRegion] 1000 500 ∧
    fillStyle = "#FF00FF" := by
  have h := mask_pixel_rectangle [saleItem] [saleRegion] 1000 500 saleItem saleRegion
    (List.mem_singleton.mpr rfl) (by rfl)
  exact ⟨h.1, h.2.2.1⟩

/-- C10: when the target image's region list contains several regions
whose trimmed text equals an active item's trimmed `original`, only the
first such region (in list order) is matched: the mask holds exactly that
region's rectangle and exactly one instruction line is emitted for the
item, whatever duplicates follow. -/
theorem duplicate_text_first_region_only
    (change : TextItem) (l₁ l₂ : List TextWithBoundingBox) (f : TextWithBoundingBox)
    (w h : Nat)
    (hf : jsTrim f.text = jsTrim change.original)
    (hl : ∀ g ∈ l₁, jsTrim g.text ≠ jsTrim change.original) :
    matchRegion (l₁ ++ f :: l₂) change = some f ∧
    maskRects [change] (l₁ ++ f :: l₂) w h = [rectOfBox f.boundingBox w h] ∧
    specificChanges [change] (l₁ ++ f :: l₂) = [instructionLine change] := by
  have hmatch : matchRegion (l₁ ++ f :: l₂) change = some f := by
    unfold matchRegion
    rw [find?_append_of_forall_not _ l₁ _
      (fun g hg => by simpa using hl g hg)]
    exact List.find?_cons_of_pos _ (by simp [hf])
  exact ⟨hmatch, by simp [maskRects, hmatch], by simp [specificChanges, hmatch]⟩

/-- The C10 theorem applied to a target whose extraction lists "SALE"
twice: only the first occurrence's box is masked. -/
theorem duplicate_text_first_region_only_witness :
    matchRegion [otherRegion, saleRegion, saleRegionDup] saleItem = some saleRegion ∧
    maskRects [saleItem] [otherRegion, saleRegion, saleRegionDup] 100 200
      = [rectOfBox saleRegion.boundingBox 100 200] := by
  have h := duplicate_text_first_region_only saleItem [otherRegion] [saleRegionDup]
    saleRegion 100 200 (by rfl) (by decide)
  exact ⟨h.1, h.2.1⟩

/-- Helper: the loop body always records a terminal state — every branch
of the try/catch ends in `success` or `error`. -/
theorem processImage_isTerminal (changes : List TextItem) (env : PerImageEnv) (idx : Nat) :
    (processImage changes env idx).isTerminal = true := by
  obtain ⟨el, ext, edit⟩ := env
  cases el with
  | none => rfl
  | some dims =>
    cases ext with
    | error e => rfl
    | ok regions =>
      by_cases hm : hasMasks changes regions
      · cases edit with
        | error e => simp [processImage, hm, BatchProgress.isTerminal]
        | ok resp =>
          cases him : editImage resp with
          | ok result => simp [processImage, hm, him, BatchProgress.isTerminal]
          | error err => simp [processImage, hm, him, BatchProgress.isTerminal]
      · simp [processImage, hm, BatchProgress.isTerminal]

/-- Helper: a keyed map contains no entry for an absent key. -/
theorem filter_keyed_map_of_not_mem {β : Type} (g : Nat → β) (sel : List Nat) (i : Nat)
    (h : i ∉ sel) :
    (sel.map (fun j => (j, g j))).filter (fun kv => kv.1 == i) = [] := by
  induction sel with
  | nil => rfl
  | cons a t ih =>
    simp only [List.mem_cons, not_or] at h
    have hai : (a == i) = false := beq_eq_false_iff_ne.mpr (fun hh => h.1 hh.symm)
    simp [List.filter_cons, hai, ih h.2]

/-- Helper: a keyed map over distinct keys holds exactly one entry per
present key. -/
theorem filter_keyed_map_of_nodup {β : Type} (g : Nat → β) (sel : List Nat) (i : Nat)
    (hnd : sel.Nodup) (h : i ∈ sel) :
    (sel.map (fun j => (j, g j))).filter (fun kv => kv.1 == i) = [(i, g i)] := by
  induction sel with
  | nil => cases h
  | cons a t ih =>
    rcases List.mem_cons.mp h with rfl | hmem
    · have hnotin : i ∉ t := (List.nodup_cons.mp hnd).1
      simp [List.filter_cons, filter_keyed_map_of_not_mem g t i hnotin]
    · have hai : (a == i) = false := beq_eq_false_iff_ne.mpr
        (fun hh => by subst hh; exact (List.nodup_cons.mp hnd).1 hmem)
      simp [List.filter_cons, hai, ih (List.nodup_cons.mp hnd).2 hmem]

/-- Helper: looking a present key up in a keyed map yields its value. -/
theorem lookup_keyed_map {β : Type} (g : Nat → β) (sel : List Nat) (j : Nat) (h : j ∈ sel) :
    (sel.map (fun i => (i, g i))).lookup j = some (g j) := by
  induction sel with
  | nil => cases h
  | cons a t ih =>
    rcases List.mem_cons.mp h with rfl | hmem
    · simp [List.lookup]
    · by_cases hja : j = a
      · subst hja
        simp [List.lookup]
      · have hne : (j == a) = false := beq_eq_false_iff_ne.mpr hja
        simp [List.lookup, hne, ih hmem]

/-- Helper: a per-key replacement write leaves every entry with another
key untouched. -/
theorem map_update_of_not_mem {β : Type} (l : List (Nat × β)) (k : Nat) (v : β)
    (h : ∀ p ∈ l, p.1 ≠ k) :
    l.map (fun kv => if kv.1 == k then (k, v) else kv) = l := by
  induction l with
  | nil => rfl
  | cons p t ih =>
    have hpk : (p.1 == k) = false := beq_eq_false_iff_ne.mpr (h p (List.mem_cons_self p t))
    simp only [List.map_cons]
    rw [if_neg (by simp [hpk]), ih (fun q hq => h q (List.mem_cons_of_mem p hq))]

/-- Helper: replaying the loop's per-key terminal writes over the initial
all-`loading` map rewrites each selected key's entry in place, ending at
the keyed map of terminal values. -/
theorem foldl_update_terminal (f : Nat → BatchProgress) :
    ∀ (sel : List Nat) (pre : List (Nat × BatchProgress)),
      sel.Nodup → (∀ p ∈ pre, p.1 ∉ sel) →
      (sel.map (fun i => (i, f i))).foldl (fun m kv => updateProgress m kv.1 kv.2)
          (pre ++ sel.map (fun i => (i, BatchProgress.loading)))
        = pre ++ sel.map (fun i => (i, f i)) := by
  intro sel
  induction sel with
  | nil =>
    intro pre _ _
    simp
  | cons a t ih =>
    intro pre hnd hpre
    have hanotint : a ∉ t := (List.nodup_cons.mp hnd).1
    have hstep :
        updateProgress
            (pre ++ (a, BatchProgress.loading) :: t.map (fun i => (i, BatchProgress.loading)))
            a (f a)
          = (pre ++ [(a, f a)]) ++ t.map (fun i => (i, BatchProgress.loading)) := by
      unfold updateProgress
      rw [if_pos (List.any_eq_true.mpr
        ⟨(a, BatchProgress.loading), by simp, by simp⟩)]
      rw [List.map_append, List.map_cons]
      rw [map_update_of_not_mem pre a (f a)
        (fun p hp hh => hpre p hp (by rw [hh]; exact List.mem_cons_self a t))]
      rw [List.map_map]
      have htail :
          t.map ((fun kv : Nat × BatchProgress => if kv.1 == a then (a, f a) else kv) ∘
            (fun i => (i, BatchProgress.loading)))
            = t.map (fun i => (i, BatchProgress.loading)) := by
        refine List.map_congr_left (fun i hi => ?_)
        have hia : (i == a) = false :=
          beq_eq_false_iff_ne.mpr (fun hh => hanotint (hh ▸ hi))
        simp only [Function.comp_apply]
        exact if_neg (by simp [hia])
      rw [htail]
      simp
    simp only [List.map_cons, List.foldl_cons]
    rw [hstep]
    have hpre' : ∀ p ∈ pre ++ [(a, f a)], p.1 ∉ t := by
      intro p hp
      rcases List.mem_append.mp hp with hp | hp
      · exact fun hmem => hpre p hp (List.mem_cons_of_mem a hmem)
      · rcases List.mem_singleton.mp hp with rfl
        exact hanotint
    rw [ih (pre ++ [(a, f a)]) (List.nodup_cons.mp hnd).2 hpre']
    simp

/-- Helper: the run `handleSubmit` performs once both validation checks
pass. -/
theorem handleSubmit_run (m : Nat) (selection : List Nat) (textItems : List TextItem)
    (envs : Nat → PerImageEnv) (prev : List (Nat × BatchProgress))
    (hne : selection ≠ []) (hch : activeChanges textItems ≠ []) :
    handleSubmit (some m) selection textItems envs prev =
      { alertMsg := none
        batchStarted := true
        writeEvents := selection.map (fun i => (i, BatchProgress.loading))
          ++ selection.map
              (fun i => (i, processImage (activeChanges textItems) (envs i) i))
        finalProgress :=
          (selection.map
              (fun i => (i, processImage (activeChanges textItems) (envs i) i))).foldl
            (fun mp kv => updateProgress mp kv.1 kv.2)
            (selection.map (fun i => (i, BatchProgress.loading)))
        remoteCalls :=
          (selection.map (fun i => remoteCallsFor (activeChanges textItems) (envs i))).sum } := by
  unfold handleSubmit
  simp [hne, hch]

/-- C2: in every batch run over a non-empty selection (validation
passed), every selected index is first written `loading`; the write trace
for each selected index is exactly `[loading, terminal]` — one further
write to the terminal state its processing produced, never changed again;
and the final BatchProgress map has exactly one entry per
originally-selected index, each entry terminal (`success` or `error`),
none left `loading`. -/
theorem batch_progress_lifecycle (m : Nat) (selection : List Nat)
    (textItems : List TextItem) (envs : Nat → PerImageEnv)
    (prev : List (Nat × BatchProgress))
    (hnd : selection.Nodup) (hne : selection ≠ [])
    (hch : activeChanges textItems ≠ []) :
    (handleSubmit (some m) selection textItems envs prev).batchStarted = true ∧
    (∀ i ∈ selection,
      ((handleSubmit (some m) selection textItems envs prev).writeEvents.filter
          (fun kv => kv.1 == i)).map Prod.snd
        = [BatchProgress.loading,
           processImage (activeChanges textItems) (envs i) i]) ∧
    (handleSubmit (some m) selection textItems envs prev).finalProgress
      = selection.map
          (fun i => (i, processImage (activeChanges textItems) (envs i) i)) ∧
    (handleSubmit (some m) selection textItems envs prev).finalProgress.map Prod.fst
      = selection ∧
    (∀ kv ∈ (handleSubmit (some m) selection textItems envs prev).finalProgress,
      kv.2.isTerminal = true) := by
  rw [handleSubmit_run m selection textItems envs prev hne hch]
  refine ⟨rfl, ?_, ?_, ?_, ?_⟩
  · intro i hi
    show ((selection.map (fun j => (j, BatchProgress.loading))
        ++ selection.map
            (fun j => (j, processImage (activeChanges textItems) (envs j) j))).filter
          (fun kv => kv.1 == i)).map Prod.snd = _
    rw [List.filter_append,
      filter_keyed_map_of_nodup (fun _ => BatchProgress.loading) selection i hnd hi,
      filter_keyed_map_of_nodup
        (fun j => processImage (activeChanges textItems) (envs j) j) selection i hnd hi]
    rfl
  · show (selection.map
        (fun i => (i, processImage (activeChanges textItems) (envs i) i))).foldl
          (fun mp kv => updateProgress mp kv.1 kv.2)
          (selection.map (fun i => (i, BatchProgress.loading))) = _
    simpa using foldl_update_terminal
      (fun i => processImage (activeChanges textItems) (envs i) i) selection [] hnd
      (by simp)
  · show ((selection.map
        (fun i => (i, processImage (activeChanges textItems) (envs i) i))).foldl
          (fun mp kv => updateProgress mp kv.1 kv.2)
          (selection.map (fun i => (i, BatchProgress.loading)))).map Prod.fst = _
    rw [show (selection.map
        (fun i => (i, processImage (activeChanges textItems) (envs i) i))).foldl
          (fun mp kv => updateProgress mp kv.1 kv.2)
          (selection.map (fun i => (i, BatchProgress.loading)))
        = selection.map
            (fun i => (i, processImage (activeChanges textItems) (envs i) i)) from by
      simpa using foldl_update_terminal
        (fun i => processImage (activeChanges textItems) (envs i) i) selection [] hnd
        (by simp)]
    simp [Function.comp_def]
  · intro kv hkv
    rw [show (selection.map
        (fun i => (i, processImage (activeChanges textItems) (envs i) i))).foldl
          (fun mp kv => updateProgress mp kv.1 kv.2)
          (selection.map (fun i => (i, BatchProgress.loading)))
        = selection.map
            (fun i => (i, processImage (activeChanges textItems) (envs i) i)) from by
      simpa using foldl_update_terminal
        (fun i => processImage (activeChanges textItems) (envs i) i) selection [] hnd
        (by simp)] at hkv
    obtain ⟨i, _hi, rfl⟩ := List.mem_map.mp hkv
    exact processImage_isTerminal (activeChanges textItems) (envs i) i

/-- The C2 theorem applied to a concrete two-image run: the final map has
exactly the two selected entries, one `error` (no match on that variant),
one `success`. -/
theorem batch_progress_lifecycle_witness :
    (handleSubmit (some 0) [0, 1] [saleItem] sampleEnvs []).finalProgress
      = [(0, BatchProgress.error noMatchMessage),
         (1, BatchProgress.success "data:image/png;base64,abc")] := by
  have h := batch_progress_lifecycle 0 [0, 1] [saleItem] sampleEnvs []
    (by decide) (by decide) (by decide)
  rw [h.2.2.1]
  rfl

/-- C3: in every batch run, each selected image's final entry is exactly
the terminal outcome of its own processing — a function of that image's
own environment alone, so two runs whose environments agree on an index
agree on that index's entry, and every selected index still reaches a
terminal state. A failure at any stage for one image is captured in only
that image's entry, as an `error` carrying the human-readable message of
that stage: the extraction failure's own message, the fixed
no-matching-regions message when zero active edits matched (including the
zero-match case, which affects no sibling), the edit transport failure's
message, the blocked-generation message naming the reason, or the
no-image-produced message. -/
theorem batch_failure_isolation (m : Nat) (selection : List Nat)
    (textItems : List TextItem) (envs envs' : Nat → PerImageEnv)
    (prev prev' : List (Nat × BatchProgress))
    (hnd : selection.Nodup) (hne : selection ≠ [])
    (hch : activeChanges textItems ≠ []) :
    (∀ j ∈ selection,
      (handleSubmit (some m) selection textItems envs prev).finalProgress.lookup j
        = some (processImage (activeChanges textItems) (envs j) j)) ∧
    (∀ j ∈ selection, envs j = envs' j →
      (handleSubmit (some m) selection textItems envs prev).finalProgress.lookup j
        = (handleSubmit (some m) selection textItems envs' prev').finalProgress.lookup j) ∧
    (∀ j ∈ selection, ∃ t,
      (handleSubmit (some m) selection textItems envs prev).finalProgress.lookup j
        = some t ∧ t.isTerminal = true) ∧
    (∀ changes env idx dims e, PerImageEnv.element env = some dims →
      PerImageEnv.extractResult env = .error e →
      processImage changes env idx = .error e) ∧
    (∀ changes env idx dims regions, PerImageEnv.element env = some dims →
      PerImageEnv.extractResult env = .ok regions →
      hasMasks changes regions = false →
      processImage changes env idx = .error noMatchMessage) ∧
    (∀ changes env idx dims regions e, PerImageEnv.element env = some dims →
      PerImageEnv.extractResult env = .ok regions →
      hasMasks changes regions = true → PerImageEnv.editResult env = .error e →
      processImage changes env idx = .error e) ∧
    (∀ changes env idx dims regions resp err, PerImageEnv.element env = some dims →
      PerImageEnv.extractResult env = .ok regions →
      hasMasks changes regions = true → PerImageEnv.editResult env = .ok resp →
      editImage resp = .error err →
      processImage changes env idx = .error (EditError.message err)) ∧
    (∀ changes env idx dims regions resp res, PerImageEnv.element env = some dims →
      PerImageEnv.extractResult env = .ok regions →
      hasMasks changes regions = true → PerImageEnv.editResult env = .ok resp →
      editImage resp = .ok res →
      processImage changes env idx = .success res) := by
  have hfinal : ∀ (es : Nat → PerImageEnv) (pv : List (Nat × BatchProgress)),
      (handleSubmit (some m) selection textItems es pv).finalProgress
        = selection.map (fun i => (i, processImage (activeChanges textItems) (es i) i)) := by
    intro es pv
    rw [handleSubmit_run m selection textItems es pv hne hch]
    simpa using foldl_update_terminal
      (fun i => processImage (activeChanges textItems) (es i) i) selection [] hnd
      (by simp)
  refine ⟨?_, ?_, ?_, ?_, ?_, ?_, ?_, ?_⟩
  · intro j hj
    rw [hfinal envs prev]
    exact lookup_keyed_map _ selection j hj
  · intro j hj hagree
    rw [hfinal envs prev, hfinal envs' prev',
      lookup_keyed_map _ selection j hj, lookup_keyed_map _ selection j hj, hagree]
  · intro j hj
    refine ⟨processImage (activeChanges textItems) (envs j) j, ?_,
      processImage_isTerminal _ _ _⟩
    rw [hfinal envs prev]
    exact lookup_keyed_map _ selection j hj
  · intro changes env idx dims e hel hex
    simp [processImage, hel, hex]
  · intro changes env idx dims regions hel hex hm
    simp [processImage, hel, hex, hm]
  · intro changes env idx dims regions e hel hex hm hed
    simp [processImage, hel, hex, hm, hed]
  · intro changes env idx dims regions resp err hel hex hm hed him
    simp [processImage, hel, hex, hm, hed, him]
  · intro changes env idx dims regions resp res hel hex hm hed him
    simp [processImage, hel, hex, hm, hed, him]

/-- The C3 theorem applied to a concrete run where image 0 has zero
matches and image 1 succeeds: image 0 alone is recorded as `error` with
the no-match message, image 1 still reaches `success`. -/
theorem batch_failure_isolation_witness :
    (handleSubmit (some 0) [0, 1] [saleItem] sampleEnvs []).finalProgress.lookup 0
      = some (BatchProgress.error noMatchMessage) ∧
    (handleSubmit (some 0) [0, 1] [saleItem] sampleEnvs []).finalProgress.lookup 1
      = some (BatchProgress.success "data:image/png;base64,abc") := by
  have h := batch_failure_isolation 0 [0, 1] [saleItem] sampleEnvs sampleEnvs [] []
    (by decide) (by decide) (by decide)
  constructor
  · rw [h.1 0 (by decide)]
    rfl
  · rw [h.1 1 (by decide)]
    rfl

/-- C5: every submission with the master unset, an empty selection, or no
active EditItem (every `modified` equal to its `original`) aborts with a
user-facing validation alert, does not enter batch processing, issues
zero remote calls, writes nothing to the progress map, and leaves the
BatchProgress map exactly as it was. -/
theorem submit_validation_aborts (masterIndex : Option Nat) (selection : List Nat)
    (textItems : List TextItem) (envs : Nat → PerImageEnv)
    (prev : List (Nat × BatchProgress))
    (h : masterIndex = none ∨ selection = [] ∨ activeChanges textItems = []) :
    (∃ msg, (handleSubmit masterIndex selection textItems envs prev).alertMsg = some msg) ∧
    (handleSubmit masterIndex selection textItems envs prev).batchStarted = false ∧
    (handleSubmit masterIndex selection textItems envs prev).remoteCalls = 0 ∧
    (handleSubmit masterIndex selection textItems envs prev).finalProgress = prev ∧
    (handleSubmit masterIndex selection textItems envs prev).writeEvents = [] := by
  by_cases h1 : masterIndex = none ∨ selection = []
  · refine ⟨⟨validationMessage1, ?_⟩, ?_, ?_, ?_, ?_⟩ <;> simp [handleSubmit, h1]
  · have h2 : activeChanges textItems = [] := by
      rcases h with h | h | h
      · exact absurd (Or.inl h) h1
      · exact absurd (Or.inr h) h1
      · exact h
    refine ⟨⟨validationMessage2, ?_⟩, ?_, ?_, ?_, ?_⟩ <;> simp [handleSubmit, h1, h2]

/-- The C5 theorem applied to a concrete submission whose only EditItem
is inactive (`modified = original`): validation aborts with no remote
call and an untouched progress map. -/
theorem submit_validation_aborts_witness :
    (handleSubmit (some 0) [0] [⟨0, "SALE", "SALE", boxMaster⟩] sampleEnvs
        [(5, BatchProgress.pending)]).batchStarted = false ∧
    (handleSubmit (some 0) [0] [⟨0, "SALE", "SALE", boxMaster⟩] sampleEnvs
        [(5, BatchProgress.pending)]).remoteCalls = 0 ∧
    (handleSubmit (some 0) [0] [⟨0, "SALE", "SALE", boxMaster⟩] sampleEnvs
        [(5, BatchProgress.pending)]).finalProgress = [(5, BatchProgress.pending)] := by
  have h := submit_validation_aborts (some 0) [0] [⟨0, "SALE", "SALE", boxMaster⟩]
    sampleEnvs [(5, BatchProgress.pending)] (Or.inr (Or.inr (by rfl)))
  exact ⟨h.2.1, h.2.2.1, h.2.2.2.1⟩

/-- C8: every master (re-)selection first clears the EditItem list (and
the progress map and analysis error); on successful extraction the list
is repopulated 1:1 from the new master's regions — item i carrying
`id = i`, `original = modified =` the region's text and the region's
bounding box — with nothing retained from any prior master; on extraction
failure the session-level analysis error is set and the EditItem list
stays empty. -/
theorem master_analysis_resets_items (m numImages : Nat)
    (regions : List TextWithBoundingBox) (e : String) (st : AnalysisState)
    (hm : m < numImages) :
    (analyzeMasterStart st).textItems = [] ∧
    (analyzeMasterStart st).batchProgress = [] ∧
    (analyzeMasterStart st).analysisError = none ∧
    analyzeMasterImage (some m) numImages (.ok regions) st
      = ⟨toTextItems regions, false, none, []⟩ ∧
    (toTextItems regions).length = regions.length ∧
    (∀ i (hi : i < (toTextItems regions).length) (hi2 : i < regions.length),
      (toTextItems regions).get ⟨i, hi⟩
        = ⟨i, (regions.get ⟨i, hi2⟩).text, (regions.get ⟨i, hi2⟩).text,
           (regions.get ⟨i, hi2⟩).boundingBox⟩) ∧
    analyzeMasterImage (some m) numImages (.error e) st
      = ⟨[], false, some e, []⟩ := by
  refine ⟨rfl, rfl, rfl, ?_, ?_, ?_, ?_⟩
  · simp [analyzeMasterImage, hm, analyzeMasterFinish, analyzeMasterStart]
  · simp [toTextItems]
  · intro i hi hi2
    simp [toTextItems]
  · simp [analyzeMasterImage, hm, analyzeMasterFinish, analyzeMasterStart]

/-- The C8 theorem applied to a session holding stale EditItems from a
prior master: re-analysis discards them and rebuilds the list from the
new master's single extracted region. -/
theorem master_analysis_resets_items_witness :
    analyzeMasterImage (some 0) 2 (.ok [saleRegion])
        ⟨[⟨7, "OLD", "NEW", boxOther⟩], false, some "stale", [(3, BatchProgress.loading)]⟩
      = ⟨[⟨0, "SALE", "SALE", boxTarget⟩], false, none, []⟩ := by
  have h := master_analysis_resets_items 0 2 [saleRegion] "x"
    ⟨[⟨7, "OLD", "NEW", boxOther⟩], false, some "stale", [(3, BatchProgress.loading)]⟩
    (by decide)
  rw [h.2.2.2.1]
  rfl

/-- C9: in every reachable session state the master's index, when set, is
a member of the batch selection, and every handler preserves this:
selecting an index as master adds it to the selection when absent, the
first upload makes index 0 both master and selected, and toggling the
current master's index leaves it selected (the master cannot be
deselected while it remains master). -/
theorem master_always_selected :
    (∀ st, Reachable st → ∀ m, st.masterIndex = some m → m ∈ st.batchSelection) ∧
    (∀ st i, (handleSelectMaster st i).masterIndex = some i ∧
      i ∈ (handleSelectMaster st i).batchSelection) ∧
    (∀ k, 0 < k → handleFileSelect initialEditorState k = ⟨k, some 0, [0]⟩) ∧
    (∀ st i, st.masterIndex = some i → i ∈ st.batchSelection →
      i ∈ (handleToggleBatchSelection st i).batchSelection) := by
  refine ⟨?_, ?_, ?_, ?_⟩
  · intro st h
    induction h with
    | init => exact fun m hm => by cases hm
    | @fileSelect st k hr ih =>
      intro m hm
      by_cases hc : st.masterIndex = none ∧ 0 < st.numImages + k
      · rw [show handleFileSelect st k = ⟨st.numImages + k, some 0, [0]⟩ from by
          unfold handleFileSelect; rw [if_pos hc]] at hm ⊢
        obtain rfl : (0 : Nat) = m := by simpa using hm
        simp
      · rw [show handleFileSelect st k = { st with numImages := st.numImages + k } from by
          unfold handleFileSelect; rw [if_neg hc]] at hm ⊢
        exact ih m hm
    | @selectMaster st i hr ih =>
      intro m hm
      obtain rfl : i = m := by simpa [handleSelectMaster] using hm
      show i ∈ setAdd st.batchSelection i
      unfold setAdd
      by_cases hi : i ∈ st.batchSelection
      · simp [hi]
      · simp [hi]
    | @toggle st i hr ih =>
      intro m hm
      have hmm : st.masterIndex = some m := hm
      have hmem := ih m hmm
      show m ∈ _
      unfold handleToggleBatchSelection
      by_cases hisel : i ∈ st.batchSelection
      · by_cases himaster : st.masterIndex = some i
        · simpa [hisel, himaster] using hmem
        · have hmi : m ≠ i := fun hh => himaster (by rw [← hh]; exact hmm)
          simp [hisel, himaster, setDelete, List.mem_filter, hmem, hmi]
      · simp [hisel, setAdd, hmem]
  · intro st i
    refine ⟨rfl, ?_⟩
    show i ∈ setAdd st.batchSelection i
    unfold setAdd
    by_cases hi : i ∈ st.batchSelection
    · simp [hi]
    · simp [hi]
  · intro k hk
    unfold handleFileSelect initialEditorState
    rw [if_pos ⟨rfl, by simpa using hk⟩]
    simp
  · intro st i hmi hmem
    show i ∈ _
    unfold handleToggleBatchSelection
    simp [hmem, hmi]

/-- The C9 theorem applied to a concrete reachable state: after uploading
two images and promoting index 1 to master, index 1 is in the batch
selection. -/
theorem master_always_selected_witness :
    1 ∈ (handleSelectMaster (handleFileSelect initialEditorState 2) 1).batchSelection :=
  master_always_selected.1 _
    (Reachable.selectMaster 1 (Reachable.fileSelect 2 Reachable.init)) 1 rfl
